import Mathlib

/-!
Verification development for the Chatpicking repository
(`scripts/collect.mjs` and `scripts/fetch.mjs`).

The JavaScript sources are shallowly embedded below:
pure helpers (`extractText`, `formatMessage`, argument parsing) become Lean
functions; the event-driven parts (the collect session's message loop, the
request correlator of `sendRequest`) become explicit state-passing functions
over lists of events.  JS `undefined`/`null` is modelled with `Option`,
JS falsiness of strings/numbers is modelled explicitly (empty string and 0
are falsy), and ISO date rendering is abstracted to the epoch instant it is
injectively derived from.
-/

namespace Chatpicking

/-! ## JavaScript value helpers -/

/-- Models the JS expression `a || b` for an optional string `a`
(`undefined` and `""` are falsy). -/
def jsOrStr (a : Option String) (b : String) : String :=
  match a with
  | some s => if s = "" then b else s
  | none => b

/-- Models the JS expression `n || null` for an optional number
(`undefined` and `0` are falsy). -/
def jsNumOrNull (a : Option Nat) : Option Nat :=
  match a with
  | some n => if n = 0 then none else some n
  | none => none

/-! ## Decimal rendering of numbers

JS template literals such as `` `req_${id}_${ts}` `` interpolate numbers in
decimal.  We embed this rendering explicitly so that facts about it
(digit-only characters, injectivity) can be proved. -/

/-- Fuel-driven digit extraction (the fuel only bounds the recursion depth
and is always supplied amply; see `natDecRev_eq`). -/
def natDecAux : Nat → Nat → List Char
  | 0, _ => []
  | fuel + 1, n =>
    if n < 10 then [Nat.digitChar n]
    else Nat.digitChar (n % 10) :: natDecAux fuel (n / 10)

/-- Decimal digits of `n`, least significant first, as characters. -/
def natDecRev (n : Nat) : List Char :=
  natDecAux (n + 1) n

/-- Decimal string of a natural number, as a JS template literal renders it. -/
def natDec (n : Nat) : String :=
  ⟨(natDecRev n).reverse⟩

/-! ## Text extraction and message formatting
(`extractText` / `formatMessage`, identical in both scripts) -/

/-- One entry of a message's segment array: `{type, data}`, where the only
field of `data` the code reads is `data?.text` (possibly absent). -/
structure Segment where
  type : String
  dataText : Option String
deriving DecidableEq, Repr

/-- The `sender` object of an event: `{nickname?, card?, user_id?}`. -/
structure Sender where
  nickname : Option String
  card : Option String
  user_id : Option Nat
deriving DecidableEq, Repr

/-- The message object consumed by `formatMessage`: `sender` may be absent,
`time` is epoch seconds (absent or 0 are both falsy), `message` is the
segment array (`none` models a missing/non-array field). -/
structure Msg where
  sender : Option Sender
  time : Option Nat
  message : Option (List Segment)
deriving DecidableEq, Repr

/-- Embeds JS `String.prototype.trim()`: strip whitespace from both ends. -/
def jsTrim (s : String) : String :=
  ⟨((s.data.dropWhile (·.isWhitespace)).reverse.dropWhile
    (·.isWhitespace)).reverse⟩

/-- Embeds `extractText(message)`: keep segments with `type === "text"`,
map each to `seg.data?.text || ''`, join and trim.  A missing or non-array
`message` yields `''`. -/
def extractText (message : Option (List Segment)) : String :=
  match message with
  | none => ""
  | some segs =>
    jsTrim (String.join ((segs.filter (fun s => s.type = "text")).map
      (fun s => s.dataText.getD "")))

/-- The normalized record produced by `formatMessage`.  The `time` field
holds the epoch instant whose ISO-8601 rendering the script emits (the
rendering itself is injective presentation and is abstracted away). -/
structure CollectedRecord where
  sender : String
  user_id : Option Nat
  time : Option Nat
  timestamp : Option Nat
  content : String
deriving DecidableEq, Repr

/-- Embeds the sender display name
`msg.sender?.nickname || msg.sender?.card || ` `` `用户${msg.sender?.user_id || "未知"}` ``. -/
def senderName (s : Option Sender) : String :=
  jsOrStr (s.bind (·.nickname))
    (jsOrStr (s.bind (·.card))
      ("用户" ++ (match s.bind (·.user_id) with
        | some u => if u = 0 then "未知" else natDec u
        | none => "未知")))

/-- Embeds `formatMessage(msg)`: `null` when the extracted text is empty,
otherwise the normalized record. -/
def formatMessage (m : Msg) : Option CollectedRecord :=
  let text := extractText m.message
  if text = "" then none
  else some
    { sender := senderName m.sender
      user_id := jsNumOrNull (m.sender.bind (·.user_id))
      time := jsNumOrNull m.time
      timestamp := jsNumOrNull m.time
      content := text }

/-! ## Collect session (`collect.mjs` main loop)

The `ws.on("message", ...)` handler of `collect.mjs` parses each raw frame,
keeps only group-message events of the target group, formats them, and
appends non-null results to `collectedMessages`.  We embed the handler as a
step function on the buffer and the whole session as a run over a list of
inputs: inbound frames, the close notification, an external process signal,
and the duration timer firing. -/

/-- An inbound push event as the handler reads it: the routing fields
`post_type`, `message_type`, `group_id`, plus the message object itself
(`sender`, `time`, `message` live on the same JSON object). -/
structure PushEvent where
  post_type : String
  message_type : String
  group_id : Nat
  msg : Msg
deriving DecidableEq, Repr

/-- A raw inbound frame after the handler's `JSON.parse` attempt:
either a decoded event or a malformed frame (caught and ignored). -/
inductive Inbound where
  | malformed
  | event (e : PushEvent)
deriving DecidableEq, Repr

/-- Embeds one execution of the `ws.on("message")` handler of
`collect.mjs`: accept the event iff `post_type === "message"`,
`message_type === "group"` and `parseInt(group_id) === targetGroup`, then
push `formatMessage(event)` when it is non-null. -/
def handleMessage (targetGroup : Nat) (buf : List CollectedRecord)
    (raw : Inbound) : List CollectedRecord :=
  match raw with
  | .malformed => buf
  | .event e =>
    if e.post_type = "message" ∧ e.message_type = "group" ∧
        e.group_id = targetGroup then
      match formatMessage e.msg with
      | some r => buf ++ [r]
      | none => buf
    else buf

/-- The buffer accumulated by processing a list of inbound frames in
arrival order, starting from the empty buffer. -/
def collectBuffer (targetGroup : Nat) (raws : List Inbound) :
    List CollectedRecord :=
  raws.foldl (handleMessage targetGroup) []

/-- One input to the collect session's event loop, in arrival order:
an inbound frame, the WebSocket close notification, an external process
signal, or the `setTimeout(durationMs)` timer firing (carrying the wall
clock `new Date()` reads at that point). -/
inductive SessionInput where
  | frame (raw : Inbound)
  | closeEvt
  | cancelSignal
  | deadline (now : Nat)
deriving DecidableEq, Repr

/-- The success report `collect.mjs` prints: `start_time`/`end_time` hold
the epoch instants whose ISO renderings are emitted. -/
structure CollectReport where
  success : Bool
  group_id : String
  collected_count : Nat
  duration_minutes : Int
  start_time : Nat
  end_time : Nat
  messages : List CollectedRecord
deriving DecidableEq, Repr

/-- Embeds the collect session's event loop.  Frames go through the message
handler; the close listener only writes a progress line to stderr and
changes nothing; `collect.mjs` installs no signal handler, so an external
process signal terminates the process before any report is written
(result `none`); the duration timer firing seals the buffer and builds the
report.  `none` for an input list with no deadline models a run that has
not produced a report. -/
def collectRun (groupStr : String) (durationMin : Int) (targetGroup : Nat)
    (startTime : Nat) (buf : List CollectedRecord) :
    List SessionInput → Option CollectReport
  | [] => none
  | .frame raw :: rest =>
    collectRun groupStr durationMin targetGroup startTime
      (handleMessage targetGroup buf raw) rest
  | .closeEvt :: rest =>
    collectRun groupStr durationMin targetGroup startTime buf rest
  | .cancelSignal :: _ => none
  | .deadline now :: _ =>
    some
      { success := true
        group_id := groupStr
        collected_count := buf.length
        duration_minutes := durationMin
        start_time := startTime
        end_time := now
        messages := buf }

/-! ## Argument parsing (`parseArgs` of `collect.mjs`) -/

/-- Embeds JS `parseInt(s, 10)`: skip leading whitespace, optional sign,
then the longest leading digit run; `none` models `NaN`. -/
def jsParseInt (s : String) : Option Int :=
  let cs := s.data.dropWhile (·.isWhitespace)
  let signed : Int × List Char :=
    match cs with
    | '-' :: rest => (-1, rest)
    | '+' :: rest => (1, rest)
    | _ => (1, cs)
  let digits := signed.2.takeWhile (·.isDigit)
  if digits = [] then none
  else some (signed.1 *
    (digits.foldl (fun acc c => acc * 10 + (c.toNat - 48)) 0 : Nat))

/-- Embeds `parseInt(s, 10) || 60`: both `NaN` and `0` are falsy and give
the default. -/
def parseDuration (s : String) : Int :=
  match jsParseInt s with
  | some n => if n = 0 then 60 else n
  | none => 60

/-- The `args` record of `collect.mjs`. -/
structure CollectArgs where
  napcat : String
  group : String
  duration : Int
  token : String
deriving DecidableEq, Repr

/-- Outcome of `parseArgs`: `--help` exits 0, a missing group id exits 1,
otherwise the parsed arguments are returned. -/
inductive ParseOutcome where
  | helpExit
  | missingGroupExit
  | ok (a : CollectArgs)
deriving DecidableEq, Repr

/-- Embeds the `switch` loop of `parseArgs` over `argv` (past the two
node/script entries).  A flag that is the last element reads
`argv[++i] === undefined`; for `--duration` that is `parseInt(undefined) ||
60 = 60`, for the string flags `undefined` is modelled as the empty string
(both are falsy everywhere the script reads them). -/
def parseArgsFrom (a : CollectArgs) : List String → ParseOutcome
  | [] => if a.group = "" then .missingGroupExit else .ok a
  | "--napcat" :: [] => parseArgsFrom { a with napcat := "" } []
  | "--napcat" :: v :: rest => parseArgsFrom { a with napcat := v } rest
  | "--group" :: [] => parseArgsFrom { a with group := "" } []
  | "--group" :: v :: rest => parseArgsFrom { a with group := v } rest
  | "--duration" :: [] => parseArgsFrom { a with duration := 60 } []
  | "--duration" :: v :: rest =>
    parseArgsFrom { a with duration := parseDuration v } rest
  | "--token" :: [] => parseArgsFrom { a with token := "" } []
  | "--token" :: v :: rest => parseArgsFrom { a with token := v } rest
  | "--help" :: _ => .helpExit
  | _ :: rest => parseArgsFrom a rest

/-- Embeds `parseArgs` with the environment fallbacks
(`NAPCAT_WS || "ws://127.0.0.1:3001"` etc.); `duration` defaults to 60. -/
def parseArgs (envWs envGroup envToken : Option String)
    (argv : List String) : ParseOutcome :=
  parseArgsFrom
    { napcat := jsOrStr envWs "ws://127.0.0.1:3001"
      group := jsOrStr envGroup ""
      duration := 60
      token := jsOrStr envToken "" } argv

/-! ## One-shot fetch flow (`fetch.mjs` main)

`fetch.mjs` issues one `get_group_msg_history` request and post-processes
its `data` payload with
`const rawMessages = historyData?.messages || historyData || [];`
`const messages = (Array.isArray(rawMessages) ? rawMessages : []).map(formatMessage).filter(Boolean);`.
The payload is embedded as a small JSON-value type carrying exactly the
shape distinctions the code tests: array, object with an optional
`messages` field, null, or some other truthy non-array value. -/

/-- Decoded history payload (`data.data` of the response).  An array's
elements are the raw message items fed to `formatMessage`; an object's only
field the code reads is `messages`. -/
inductive HVal where
  | jarr (items : List Msg)
  | jobj (messages : Option HVal)
  | jnull
  | jother
deriving Repr

/-- JS truthiness of a (possibly undefined) payload value: arrays and
objects are always truthy, `null`/`undefined` are falsy, `jother` stands
for a truthy primitive. -/
def hTruthy : Option HVal → Bool
  | some (.jarr _) => true
  | some (.jobj _) => true
  | some .jnull => false
  | some .jother => true
  | none => false

/-- Property access `h?.messages`: only objects have the field; on arrays,
null and primitives it reads `undefined`. -/
def getMessagesField : Option HVal → Option HVal
  | some (.jobj m) => m
  | _ => none

/-- Models `a || b` on payload values. -/
def hOr (a b : Option HVal) : Option HVal :=
  if hTruthy a then a else b

/-- Models `Array.isArray(v) ? v : []`. -/
def asArray : Option HVal → List Msg
  | some (.jarr items) => items
  | _ => []

/-- Embeds the raw-message extraction
`historyData?.messages || historyData || []` followed by the
`Array.isArray` guard. -/
def rawMessagesOf (historyData : Option HVal) : List Msg :=
  asArray (hOr (hOr (getMessagesField historyData) historyData)
    (some (.jarr [])))

/-- Embeds `.map(formatMessage).filter(Boolean)` on the extracted list. -/
def fetchMessages (historyData : Option HVal) : List CollectedRecord :=
  (rawMessagesOf historyData).filterMap formatMessage

/-- The success report `fetch.mjs` prints; `fetch_time` holds the epoch
instant whose ISO rendering is emitted. -/
structure FetchReport where
  success : Bool
  group_id : String
  fetched_count : Nat
  requested_count : Int
  fetch_time : Nat
  messages : List CollectedRecord
deriving DecidableEq, Repr

/-- Embeds the report construction of `fetch.mjs` main from a successful
history response payload. -/
def mkFetchReport (groupStr : String) (count : Int) (now : Nat)
    (historyData : Option HVal) : FetchReport :=
  { success := true
    group_id := groupStr
    fetched_count := (fetchMessages historyData).length
    requested_count := count
    fetch_time := now
    messages := fetchMessages historyData }

/-! ## Request correlator (`sendRequest` of `fetch.mjs`)

Each `sendRequest` call mints `echo = ` `` `req_${++requestId}_${Date.now()}` ``,
arms a 15 s timeout, and attaches a per-request `message` listener that
reacts only to frames whose `echo` matches, detaching itself and clearing
the timer when one arrives.  The promise settles at most once (later
`resolve`/`reject` calls are no-ops).  We embed the set of outstanding
requests as a list of waiters in registration order and the event sources
(inbound frames, timer expiries, the close notification) as step functions
on that list. -/

/-- The settled outcome of one request's promise. -/
inductive ReqResult where
  | resolved (payload : Option HVal)
  | apiError (action : String) (retcode : Int) (msg : String)
  | requestTimeout (action : String)
deriving Repr

/-- One outstanding `sendRequest` call: the token components `rid`
(the `++requestId` value) and `ts` (`Date.now()`), the action name, the
write-once promise slot, whether the `message` listener is still attached,
and whether the timeout timer is still armed. -/
structure Waiter where
  rid : Nat
  ts : Nat
  action : String
  result : Option ReqResult
  attached : Bool
  timerActive : Bool
deriving Repr

/-- Embeds the token template `` `req_${rid}_${ts}` ``. -/
def mkEcho (rid ts : Nat) : String :=
  "req_" ++ natDec rid ++ "_" ++ natDec ts

/-- The correlation token the waiter's listener compares against. -/
def Waiter.echo (w : Waiter) : String :=
  mkEcho w.rid w.ts

/-- A parsed inbound response frame: `{echo, retcode, data, msg?, message?}`. -/
structure Frame where
  echo : String
  retcode : Int
  data : Option HVal
  msg : Option String
  message : Option String
deriving Repr

/-- Correlator state: the module-global `requestId` counter plus the
outstanding waiters in registration order. -/
structure Correlator where
  requestId : Nat
  waiters : List Waiter
deriving Repr

/-- Embeds the registration half of `sendRequest(ws, action, params)`:
pre-increment the global counter, mint the echo token, arm the timer and
attach the listener.  (`ws.send` of the encoded frame is network I/O and
carries no correlator state.) -/
def sendRequest (c : Correlator) (action : String) (now : Nat) :
    Correlator :=
  let rid := c.requestId + 1
  { requestId := rid
    waiters := c.waiters ++
      [{ rid := rid, ts := now, action := action, result := none,
         attached := true, timerActive := true }] }

/-- Issues a sequence of requests (action, `Date.now()` value) through one
correlator. -/
def sendAll (c : Correlator) (reqs : List (String × Nat)) : Correlator :=
  reqs.foldl (fun st r => sendRequest st r.1 r.2) c

/-- Embeds the body of one matching listener invocation: clear the timer,
detach the listener, then `resolve(data.data)` on `retcode === 0` or
`reject(new Error(...msg || message || "未知"))` otherwise — both no-ops if
the promise is already settled. -/
def settleWaiter (f : Frame) (w : Waiter) : Waiter :=
  { w with
    attached := false
    timerActive := false
    result :=
      match w.result with
      | some r => some r
      | none =>
        some (if f.retcode = 0 then .resolved f.data
          else .apiError w.action f.retcode
            (jsOrStr f.msg (jsOrStr f.message "未知"))) }

/-- Embeds the arrival of one inbound frame: every still-attached listener
runs; only those whose token equals the frame's `echo` do anything. -/
def deliverFrame (f : Frame) (ws : List Waiter) : List Waiter :=
  ws.map (fun w =>
    if w.attached = true ∧ w.echo = f.echo then settleWaiter f w else w)

/-- Embeds the timeout callback of waiter `i` firing: only possible while
its timer is armed; it rejects with `` `请求超时: ${action}` `` (a no-op if the
promise is somehow already settled) and, being a one-shot timer, disarms.
The message listener is NOT removed here. -/
def fireTimeout (i : Nat) (ws : List Waiter) : List Waiter :=
  match ws.get? i with
  | none => ws
  | some w =>
    if w.timerActive = true then
      ws.set i
        { w with
          timerActive := false
          result :=
            match w.result with
            | some r => some r
            | none => some (.requestTimeout w.action) }
    else ws

/-- Embeds the effect of the connection closing on outstanding requests:
`fetch.mjs` registers no `close` listener at all and `collect.mjs`'s only
writes a progress line to stderr, so no waiter is settled, detached or
removed. -/
def handleClose (ws : List Waiter) : List Waiter :=
  ws

/-! ## Derived observations used by the theorems -/

/-- The record (if any) the message handler appends for one inbound frame:
the scope filter followed by the formatter. -/
def acceptEvent (targetGroup : Nat) : Inbound → Option CollectedRecord
  | .malformed => none
  | .event e =>
    if e.post_type = "message" ∧ e.message_type = "group" ∧
        e.group_id = targetGroup then
      formatMessage e.msg
    else none

/-- Whether an inbound frame is a group-message event of the target scope. -/
def scopeOk (targetGroup : Nat) : Inbound → Bool
  | .malformed => false
  | .event e =>
    decide (e.post_type = "message" ∧ e.message_type = "group" ∧
      e.group_id = targetGroup)

/-- Whether an inbound frame's message has non-empty extracted text. -/
def textOk : Inbound → Bool
  | .malformed => false
  | .event e => decide (extractText e.msg.message ≠ "")

/-- Folds a sequence of inbound response frames through the correlator's
waiter table in arrival order. -/
def runFrames (ws : List Waiter) (fs : List Frame) : List Waiter :=
  fs.foldl (fun s f => deliverFrame f s) ws

/-- The parsed `duration` of a successful argument parse. -/
def argsDurationOf : ParseOutcome → Option Int
  | .ok a => some a.duration
  | _ => none

/-! ## Concrete fixtures for witnesses and counterexamples -/

/-- A pending waiter: first request, issued at `Date.now() = 5`. -/
def waiterA : Waiter :=
  { rid := 1, ts := 5, action := "get_group_msg_history", result := none,
    attached := true, timerActive := true }

/-- A second pending waiter issued at the same instant. -/
def waiterB : Waiter :=
  { rid := 2, ts := 5, action := "send_group_msg", result := none,
    attached := true, timerActive := true }

/-- A response frame addressed to `waiterA`. -/
def frameA : Frame :=
  { echo := mkEcho 1 5, retcode := 0, data := some (.jarr []), msg := none,
    message := none }

/-- A concrete sender. -/
def senderAlice : Sender :=
  { nickname := some "alice", card := none, user_id := some 7 }

/-- The message object of `eventHi`. -/
def msgHi : Msg :=
  { sender := some senderAlice, time := some 100,
    message := some [{ type := "text", dataText := some "hi" }] }

/-- A push event of group 42 with the text segment `"hi"`. -/
def eventHi : PushEvent :=
  { post_type := "message", message_type := "group", group_id := 42,
    msg := msgHi }

/-- The record `formatMessage` produces for `eventHi`. -/
def recordHi : CollectedRecord :=
  { sender := "alice", user_id := some 7, time := some 100,
    timestamp := some 100, content := "hi" }

/-- A push event for a different group (43). -/
def eventOther : PushEvent :=
  { eventHi with group_id := 43 }

/-! ## Helper lemmas: decimal rendering and token injectivity -/

/-- Ample fuel makes the digit extraction independent of the exact fuel. -/
theorem natDecAux_fuel (n : Nat) :
    ∀ f₁ f₂, n < f₁ → n < f₂ → natDecAux f₁ n = natDecAux f₂ n := by
  induction n using Nat.strong_induction_on with
  | _ n ih =>
    intro f₁ f₂ h₁ h₂
    match f₁, f₂ with
    | a + 1, b + 1 =>
      simp only [natDecAux]
      by_cases h10 : n < 10
      · simp [h10]
      · simp only [h10, if_false]
        have hdiv : n / 10 < n := Nat.div_lt_self (by omega) (by omega)
        rw [ih (n / 10) hdiv a b (by omega) (by omega)]

/-- Unfolding equation of `natDecRev`, with the fuel hidden. -/
theorem natDecRev_eq (n : Nat) :
    natDecRev n = if n < 10 then [Nat.digitChar n]
      else Nat.digitChar (n % 10) :: natDecRev (n / 10) := by
  by_cases h10 : n < 10
  · unfold natDecRev; rw [natDecAux]; simp [h10]
  · unfold natDecRev
    rw [natDecAux]
    simp only [h10, if_false]
    rw [natDecAux_fuel (n / 10) n (n / 10 + 1) (by omega) (by omega)]

/-- A decimal rendering always has at least one digit. -/
theorem natDecRev_ne_nil (n : Nat) : natDecRev n ≠ [] := by
  rw [natDecRev_eq]; split <;> simp

/-- Decimal renderings contain no underscore, so the underscores of
`mkEcho` are unambiguous separators. -/
theorem natDecRev_no_underscore (n : Nat) : '_' ∉ natDecRev n := by
  induction n using Nat.strong_induction_on with
  | _ n ih =>
    have hd : ∀ k, k < 10 → Nat.digitChar k ≠ '_' := by decide
    rw [natDecRev_eq]
    by_cases h10 : n < 10
    · rw [if_pos h10]
      intro hmem
      exact hd n h10 (List.mem_singleton.mp hmem).symm
    · rw [if_neg h10]
      intro hmem
      rcases List.mem_cons.mp hmem with h | h
      · exact hd (n % 10) (by omega) h.symm
      · exact ih (n / 10) (Nat.div_lt_self (by omega) (by omega)) h

/-- Decimal rendering is injective. -/
theorem natDecRev_inj (n : Nat) : ∀ m, natDecRev n = natDecRev m → n = m := by
  induction n using Nat.strong_induction_on with
  | _ n ih =>
    intro m h
    have hdc : ∀ a, a < 10 → ∀ b, b < 10 →
        Nat.digitChar a = Nat.digitChar b → a = b := by decide
    rw [natDecRev_eq n, natDecRev_eq m] at h
    by_cases hn : n < 10 <;> by_cases hm : m < 10
    · rw [if_pos hn, if_pos hm] at h
      injection h with h1 _
      exact hdc n hn m hm h1
    · rw [if_pos hn, if_neg hm] at h
      injection h with _ h2
      exact absurd h2.symm (natDecRev_ne_nil (m / 10))
    · rw [if_neg hn, if_pos hm] at h
      injection h with _ h2
      exact absurd h2 (natDecRev_ne_nil (n / 10))
    · rw [if_neg hn, if_neg hm] at h
      injection h with h1 h2
      have hmod : n % 10 = m % 10 := hdc _ (by omega) _ (by omega) h1
      have hdiv : n / 10 = m / 10 :=
        ih (n / 10) (Nat.div_lt_self (by omega) (by omega)) (m / 10) h2
      omega

/-- Splitting a character list at a separator absent from both prefixes is
unambiguous. -/
theorem sep_split_unique : ∀ (l₁ : List Char) (l₂ m₁ m₂ : List Char),
    '_' ∉ l₁ → '_' ∉ l₂ → l₁ ++ '_' :: m₁ = l₂ ++ '_' :: m₂ →
    l₁ = l₂ ∧ m₁ = m₂ := by
  intro l₁
  induction l₁ with
  | nil =>
    intro l₂ m₁ m₂ _ h₂ h
    cases l₂ with
    | nil => simpa using h
    | cons c t =>
      injection h with h1 h2
      exact absurd (h1 ▸ List.mem_cons_self c t) h₂
  | cons c t ih =>
    intro l₂ m₁ m₂ h₁ h₂ h
    cases l₂ with
    | nil =>
      injection h with h1 _
      exact absurd (h1 ▸ List.mem_cons_self c t) h₁
    | cons c' t' =>
      injection h with h1 h2
      have := ih t' m₁ m₂ (fun hm => h₁ (List.mem_cons_of_mem c hm))
        (fun hm => h₂ (List.mem_cons_of_mem c' hm)) h2
      exact ⟨by rw [h1, this.1], this.2⟩

/-- The character data of `natDec`. -/
theorem natDec_data (n : Nat) : (natDec n).data = (natDecRev n).reverse :=
  rfl

/-- The token template `` `req_${rid}_${ts}` `` is injective in both
components. -/
theorem mkEcho_inj (r₁ t₁ r₂ t₂ : Nat) (h : mkEcho r₁ t₁ = mkEcho r₂ t₂) :
    r₁ = r₂ ∧ t₁ = t₂ := by
  have hdata : (mkEcho r₁ t₁).data = (mkEcho r₂ t₂).data := by rw [h]
  simp only [mkEcho, String.data_append, natDec_data] at hdata
  simp only [List.append_assoc] at hdata
  have hreq : (natDecRev r₁).reverse ++ ("_".data ++ (natDecRev t₁).reverse) =
      (natDecRev r₂).reverse ++ ("_".data ++ (natDecRev t₂).reverse) :=
    List.append_cancel_left hdata
  have hus : ∀ k : Nat, '_' ∉ (natDecRev k).reverse := fun k hmem =>
    natDecRev_no_underscore k (List.mem_reverse.mp hmem)
  have hsp : (natDecRev r₁).reverse = (natDecRev r₂).reverse ∧
      (natDecRev t₁).reverse = (natDecRev t₂).reverse :=
    sep_split_unique _ _ _ _ (hus r₁) (hus r₂) (by simpa using hreq)
  exact ⟨natDecRev_inj r₁ r₂ (List.reverse_injective hsp.1),
    natDecRev_inj t₁ t₂ (List.reverse_injective hsp.2)⟩

/-! ## Helper lemmas: formatter and collect session -/

/-- The formatter returns null exactly on empty extracted text. -/
theorem formatMessage_eq_none_iff (m : Msg) :
    formatMessage m = none ↔ extractText m.message = "" := by
  by_cases h : extractText m.message = "" <;> simp [formatMessage, h]

/-- Counting the records surviving the formatter. -/
theorem length_filterMap_formatMessage (items : List Msg) :
    (items.filterMap formatMessage).length =
      (items.filter (fun m => extractText m.message ≠ "")).length := by
  induction items with
  | nil => rfl
  | cons m rest ih =>
    by_cases h : extractText m.message = ""
    · have hn : formatMessage m = none := (formatMessage_eq_none_iff m).mpr h
      simp [List.filterMap_cons, List.filter_cons, hn, h, ih]
    · obtain ⟨r, hr⟩ : ∃ r, formatMessage m = some r := by
        cases hf : formatMessage m
        · exact absurd ((formatMessage_eq_none_iff m).mp hf) h
        · exact ⟨_, rfl⟩
      simp [List.filterMap_cons, List.filter_cons, hr, h, ih]

/-- The message handler appends precisely what `acceptEvent` yields. -/
theorem handleMessage_eq (t : Nat) (buf : List CollectedRecord)
    (raw : Inbound) :
    handleMessage t buf raw =
      match acceptEvent t raw with
      | some r => buf ++ [r]
      | none => buf := by
  cases raw with
  | malformed => rfl
  | event e =>
    by_cases h : e.post_type = "message" ∧ e.message_type = "group" ∧
        e.group_id = t
    · simp only [handleMessage, acceptEvent, if_pos h]
    · simp only [handleMessage, acceptEvent, if_neg h]

/-- Folding the handler over frames appends their accepted records. -/
theorem foldl_handleMessage_eq (t : Nat) (raws : List Inbound) :
    ∀ buf, raws.foldl (handleMessage t) buf =
      buf ++ raws.filterMap (acceptEvent t) := by
  induction raws with
  | nil => intro buf; simp
  | cons r rest ih =>
    intro buf
    rw [List.foldl_cons, ih, handleMessage_eq, List.filterMap_cons]
    cases acceptEvent t r <;> simp

/-- The session buffer is the filter-map of the inbound frames. -/
theorem collectBuffer_eq (t : Nat) (raws : List Inbound) :
    collectBuffer t raws = raws.filterMap (acceptEvent t) := by
  rw [collectBuffer, foldl_handleMessage_eq]
  simp

/-- An inbound frame is accepted iff its scope matches and its extracted
text is non-empty. -/
theorem acceptEvent_isSome (t : Nat) (raw : Inbound) :
    (acceptEvent t raw).isSome = (scopeOk t raw && textOk raw) := by
  cases raw with
  | malformed => rfl
  | event e =>
    by_cases hs : e.post_type = "message" ∧ e.message_type = "group" ∧
        e.group_id = t
    · by_cases ht : extractText e.msg.message = ""
      · simp [acceptEvent, scopeOk, textOk, hs, ht,
          (formatMessage_eq_none_iff _).mpr ht]
      · obtain ⟨r, hr⟩ : ∃ r, formatMessage e.msg = some r := by
          cases hf : formatMessage e.msg
          · exact absurd ((formatMessage_eq_none_iff _).mp hf) ht
          · exact ⟨_, rfl⟩
        simp [acceptEvent, scopeOk, textOk, hs, ht, hr]
    · simp [acceptEvent, scopeOk, textOk, hs]

/-- The buffer size counts exactly the matching non-empty-text frames. -/
theorem length_collectBuffer (t : Nat) (raws : List Inbound) :
    (collectBuffer t raws).length =
      (raws.filter (fun r => scopeOk t r && textOk r)).length := by
  rw [collectBuffer_eq]
  induction raws with
  | nil => rfl
  | cons r rest ih =>
    rw [List.filterMap_cons, List.filter_cons]
    cases ha : acceptEvent t r with
    | none =>
      have hb : (scopeOk t r && textOk r) = false := by
        rw [← acceptEvent_isSome, ha]; rfl
      simp [hb, ih]
    | some v =>
      have hb : (scopeOk t r && textOk r) = true := by
        rw [← acceptEvent_isSome, ha]; rfl
      simp [hb, ih]

/-- Running the session over a prefix of inbound frames folds them into the
buffer. -/
theorem collectRun_frames (gs : String) (dur : Int) (t st : Nat)
    (raws : List Inbound) :
    ∀ buf rest, collectRun gs dur t st buf (raws.map .frame ++ rest) =
      collectRun gs dur t st (raws.foldl (handleMessage t) buf) rest := by
  induction raws with
  | nil => intro buf rest; rfl
  | cons r rs ih =>
    intro buf rest
    simp only [List.map_cons, List.cons_append, collectRun]
    exact ih _ _

/-! ## Helper lemmas: correlator -/

/-- Settling never changes a waiter's token. -/
theorem settleWaiter_echo (f : Frame) (w : Waiter) :
    (settleWaiter f w).echo = w.echo :=
  rfl

/-- Delivering a frame never changes the table's tokens. -/
theorem deliverFrame_map_echo (f : Frame) (ws : List Waiter) :
    (deliverFrame f ws).map Waiter.echo = ws.map Waiter.echo := by
  unfold deliverFrame
  rw [List.map_map]
  apply List.map_congr_left
  intro w _
  simp only [Function.comp]
  split <;> rfl

/-- No interleaving of frame deliveries changes the table's tokens. -/
theorem runFrames_map_echo (ws : List Waiter) (fs : List Frame) :
    (runFrames ws fs).map Waiter.echo = ws.map Waiter.echo := by
  induction fs generalizing ws with
  | nil => rfl
  | cons f fs ih =>
    calc (runFrames ws (f :: fs)).map Waiter.echo
        = (runFrames (deliverFrame f ws) fs).map Waiter.echo := rfl
      _ = (deliverFrame f ws).map Waiter.echo := ih _
      _ = ws.map Waiter.echo := deliverFrame_map_echo f ws

/-- Issuing requests keeps every waiter's counter bounded by the global
counter and the counters strictly increasing in registration order. -/
theorem sendAll_inv (reqs : List (String × Nat)) :
    ∀ c : Correlator, (∀ w ∈ c.waiters, w.rid ≤ c.requestId) →
    c.waiters.Pairwise (fun w₁ w₂ => w₁.rid < w₂.rid) →
    (sendAll c reqs).requestId = c.requestId + reqs.length ∧
    (∀ w ∈ (sendAll c reqs).waiters, w.rid ≤ (sendAll c reqs).requestId) ∧
    (sendAll c reqs).waiters.Pairwise (fun w₁ w₂ => w₁.rid < w₂.rid) := by
  induction reqs with
  | nil =>
    intro c h1 h2
    exact ⟨rfl, h1, h2⟩
  | cons r rs ih =>
    intro c h1 h2
    have hstep1 : ∀ w ∈ (sendRequest c r.1 r.2).waiters,
        w.rid ≤ (sendRequest c r.1 r.2).requestId := by
      intro w hw
      simp only [sendRequest, List.mem_append, List.mem_singleton] at hw
      rcases hw with hw | hw
      · exact le_trans (h1 w hw) (Nat.le_succ _)
      · subst hw; exact le_refl _
    have hstep2 : (sendRequest c r.1 r.2).waiters.Pairwise
        (fun w₁ w₂ => w₁.rid < w₂.rid) := by
      simp only [sendRequest]
      rw [List.pairwise_append]
      refine ⟨h2, List.pairwise_singleton _ _, ?_⟩
      intro w hw w' hw'
      rw [List.mem_singleton] at hw'
      subst hw'
      exact Nat.lt_succ_of_le (h1 w hw)
    have hrec := ih (sendRequest c r.1 r.2) hstep1 hstep2
    refine ⟨?_, hrec.2.1, hrec.2.2⟩
    have : sendAll c (r :: rs) = sendAll (sendRequest c r.1 r.2) rs := rfl
    rw [this, hrec.1]
    simp only [sendRequest, List.length_cons]
    omega

/-- C9: every mint of a correlation token produces a token distinct from
every token minted earlier in the same process: the counter component
strictly increases with each request, so the echo strings of all waiters
ever registered are pairwise distinct. -/
theorem token_mint_unique (r₀ : Nat) (reqs : List (String × Nat)) :
    (sendAll ⟨r₀, []⟩ reqs).requestId = r₀ + reqs.length ∧
    (sendAll ⟨r₀, []⟩ reqs).waiters.Pairwise
      (fun w₁ w₂ => w₁.rid < w₂.rid ∧ w₁.echo ≠ w₂.echo) := by
  have h := sendAll_inv reqs ⟨r₀, []⟩ (by simp) (by simp)
  refine ⟨h.1, h.2.2.imp ?_⟩
  intro w₁ w₂ hlt
  refine ⟨hlt, fun he => ?_⟩
  have := (mkEcho_inj _ _ _ _ he).1
  omega

/-- Pointwise view of a frame delivery. -/
theorem deliverFrame_getElem (f : Frame) (ws : List Waiter) (i : Nat) :
    (deliverFrame f ws)[i]? = (ws[i]?).map
      (fun w => if w.attached = true ∧ w.echo = f.echo
        then settleWaiter f w else w) := by
  unfold deliverFrame
  exact List.getElem?_map _ _ _

/-- Effect of a pending waiter's timeout firing: the promise slot is
written with the RequestTimeout error and the timer disarms, everything
else (in particular the attached listener) unchanged. -/
theorem fireTimeout_getElem (ws : List Waiter) (i : Nat) (w : Waiter)
    (hw : ws[i]? = some w) (htimer : w.timerActive = true)
    (hres : w.result = none) :
    (fireTimeout i ws)[i]? =
      some { w with timerActive := false,
                    result := some (.requestTimeout w.action) } := by
  have hlen : i < ws.length := by
    rcases List.getElem?_eq_some.mp hw with ⟨h, _⟩
    exact h
  unfold fireTimeout
  rw [List.get?_eq_getElem?, hw]
  simp only [htimer, if_true, hres]
  exact List.getElem?_set_eq_of_lt _ hlen

/-- C1: for every table of outstanding requests with pairwise-distinct
correlation tokens and every interleaving of inbound response frames, the
tokens never change; at any instant at most one waiter can respond to a
given frame (the one whose token equals the frame's echo field); and a
delivery settles exactly that waiter, leaving every other waiter
untouched. -/
theorem correlator_routing_exclusive (ws : List Waiter) (fs : List Frame)
    (f : Frame)
    (hdist : ws.Pairwise (fun w₁ w₂ => w₁.echo ≠ w₂.echo)) :
    ((runFrames ws fs).map Waiter.echo = ws.map Waiter.echo) ∧
    (∀ (i j : Nat) (w₁ w₂ : Waiter), (runFrames ws fs)[i]? = some w₁ →
      (runFrames ws fs)[j]? = some w₂ →
      w₁.attached = true ∧ w₁.echo = f.echo →
      w₂.attached = true ∧ w₂.echo = f.echo → i = j) ∧
    (∀ (i : Nat) (w : Waiter), (runFrames ws fs)[i]? = some w →
      (deliverFrame f (runFrames ws fs))[i]? =
        some (if w.attached = true ∧ w.echo = f.echo
          then settleWaiter f w else w)) := by
  have hmap := runFrames_map_echo ws fs
  have hdist' : (runFrames ws fs).Pairwise
      (fun w₁ w₂ => w₁.echo ≠ w₂.echo) := by
    have h1 : (ws.map Waiter.echo).Pairwise (· ≠ ·) :=
      List.pairwise_map.mpr hdist
    have h2 : ((runFrames ws fs).map Waiter.echo).Pairwise (· ≠ ·) :=
      hmap ▸ h1
    exact List.pairwise_map.mp h2
  refine ⟨hmap, ?_, ?_⟩
  · intro i j w₁ w₂ hi hj hw₁ hw₂
    rw [List.pairwise_iff_getElem] at hdist'
    rcases List.getElem?_eq_some.mp hi with ⟨hilen, hieq⟩
    rcases List.getElem?_eq_some.mp hj with ⟨hjlen, hjeq⟩
    rcases Nat.lt_trichotomy i j with hij | hij | hij
    · exact absurd (by rw [hieq, hjeq, hw₁.2, hw₂.2])
        (hdist' i j hilen hjlen hij)
    · exact hij
    · exact absurd (by rw [hieq, hjeq, hw₁.2, hw₂.2])
        (hdist' j i hjlen hilen hij).symm
  · intro i w hw
    rw [deliverFrame_getElem, hw]
    rfl

/-- Witness for C1 at a concrete two-request table and a frame addressed
to the first request's token. -/
theorem correlator_routing_witness :
    ((runFrames [waiterA, waiterB] []).map Waiter.echo =
      [waiterA, waiterB].map Waiter.echo) ∧
    ((deliverFrame frameA (runFrames [waiterA, waiterB] []))[0]? =
      some (if waiterA.attached = true ∧ waiterA.echo = frameA.echo
        then settleWaiter frameA waiterA else waiterA)) := by
  have h := correlator_routing_exclusive [waiterA, waiterB] [] frameA
    (by decide)
  exact ⟨h.1, h.2.2 0 waiterA rfl⟩

/-- Counterexample for C2: when the 15-unit deadline fires, the waiter's
message listener is still attached — the pending entry is NOT removed from
the correlator's table at that moment (the code's timeout callback only
rejects; `removeListener` runs only in the frame handler). -/
theorem request_timeout_no_removal :
    ((fireTimeout 0 [waiterA])[0]?).map Waiter.attached = some true ∧
    (fireTimeout 0 [waiterA]).length = 1 ∧
    ((fireTimeout 0 [waiterA])[0]?).map Waiter.result =
      some (some (.requestTimeout "get_group_msg_history")) :=
  ⟨rfl, rfl, rfl⟩

/-- C2 (amended): if no matching frame arrives before the 15-unit deadline,
the call fails with RequestTimeout naming the action; the waiter's listener
remains attached (it is removed only when a matching frame later arrives),
but a matching response arriving after the timeout is never delivered: the
write-once promise keeps the RequestTimeout outcome. -/
theorem request_timeout_behavior (ws : List Waiter) (i : Nat) (w : Waiter)
    (hw : ws[i]? = some w) (htimer : w.timerActive = true)
    (hres : w.result = none) :
    ((fireTimeout i ws)[i]? =
      some { w with timerActive := false,
                    result := some (.requestTimeout w.action) }) ∧
    ∀ f, ((deliverFrame f (fireTimeout i ws))[i]?).map Waiter.result =
      some (some (.requestTimeout w.action)) := by
  have h1 := fireTimeout_getElem ws i w hw htimer hres
  refine ⟨h1, fun f => ?_⟩
  rw [deliverFrame_getElem, h1]
  simp only [Option.map_some']
  split <;> rfl

/-- Witness for C2's amended theorem at a concrete singleton table. -/
theorem request_timeout_witness :
    ((fireTimeout 0 [waiterA])[0]? =
      some { waiterA with timerActive := false,
                          result := some (.requestTimeout waiterA.action) }) ∧
    (((deliverFrame frameA (fireTimeout 0 [waiterA]))[0]?).map Waiter.result =
      some (some (.requestTimeout waiterA.action))) := by
  have h := request_timeout_behavior [waiterA] 0 waiterA rfl rfl rfl
  exact ⟨h.1, h.2 frameA⟩

/-- Counterexample for C3: the connection closing does not fail a pending
request with any connection-lost error — neither script reacts to `close`
for pending requests, so the waiter is unchanged and its promise still
unsettled afterwards. -/
theorem connection_close_no_reject :
    handleClose [waiterA] = [waiterA] ∧
    ((handleClose [waiterA])[0]?).map Waiter.result = some none ∧
    ((handleClose [waiterA])[0]?).map Waiter.attached = some true :=
  ⟨rfl, rfl, rfl⟩

/-- C3 (amended): a close event settles no pending request; a request
outstanding at close time stays pending until its own 15-unit deadline
elapses and then fails with RequestTimeout naming its action (no
ConnectionLost outcome exists in the code). -/
theorem close_leaves_requests_pending (ws : List Waiter) :
    handleClose ws = ws ∧
    ∀ (i : Nat) (w : Waiter), ws[i]? = some w → w.timerActive = true →
      w.result = none →
      ((fireTimeout i (handleClose ws))[i]?).map Waiter.result =
        some (some (.requestTimeout w.action)) := by
  refine ⟨rfl, fun i w hw ht hr => ?_⟩
  rw [show handleClose ws = ws from rfl, fireTimeout_getElem ws i w hw ht hr]
  rfl

/-- Witness for C3's amended theorem. -/
theorem close_pending_witness :
    handleClose [waiterB] = [waiterB] ∧
    ((fireTimeout 0 (handleClose [waiterB]))[0]?).map Waiter.result =
      some (some (.requestTimeout "send_group_msg")) := by
  have h := close_leaves_requests_pending [waiterB]
  exact ⟨h.1, h.2 0 waiterB rfl rfl rfl⟩

/-- Cancellation before any deadline input yields no report at all. -/
theorem collectRun_cancel (gs : String) (dur : Int) (t st : Nat) :
    ∀ (pre : List SessionInput) (buf : List CollectedRecord)
      (post : List SessionInput),
      (∀ x ∈ pre, ∀ m, x ≠ SessionInput.deadline m) →
      collectRun gs dur t st buf (pre ++ .cancelSignal :: post) = none := by
  intro pre
  induction pre with
  | nil => intro buf post _; rfl
  | cons x rest ih =>
    intro buf post hnd
    cases x with
    | frame raw =>
      simp only [List.cons_append, collectRun]
      exact ih _ _ (fun y hy => hnd y (List.mem_cons_of_mem _ hy))
    | closeEvt =>
      simp only [List.cons_append, collectRun]
      exact ih _ _ (fun y hy => hnd y (List.mem_cons_of_mem _ hy))
    | cancelSignal => rfl
    | deadline m => exact absurd rfl (hnd _ (List.mem_cons_self _ _) m)

/-- Counterexample for C4: with one record buffered (k = 1), an external
signal terminates the collect session without producing any report — there
is no signal handler, so the claimed k-record report never appears. -/
theorem cancel_produces_no_report :
    (handleMessage 42 [] (.event eventHi)).length = 1 ∧
    collectRun "42" 60 42 1000 []
      [.frame (.event eventHi), .cancelSignal] = none :=
  ⟨rfl, rfl⟩

/-- C4 (amended): external cancellation (a process signal) is not handled:
it terminates the session without any report, whatever is buffered; only
the deadline timer finalizes the session, and then the report contains
exactly the buffered records with `end_time >= start_time` (given the wall
clock did not go backwards). -/
theorem cancellation_and_deadline (gs : String) (dur : Int) (t st : Nat)
    (buf : List CollectedRecord) (pre post : List SessionInput) (now : Nat)
    (hnd : ∀ x ∈ pre, ∀ m, x ≠ SessionInput.deadline m)
    (hclock : st ≤ now) :
    collectRun gs dur t st buf (pre ++ .cancelSignal :: post) = none ∧
    (collectRun gs dur t st buf (.deadline now :: post) =
      some { success := true, group_id := gs, collected_count := buf.length,
             duration_minutes := dur, start_time := st, end_time := now,
             messages := buf }) ∧
    st ≤ now :=
  ⟨collectRun_cancel gs dur t st pre buf post hnd, rfl, hclock⟩

/-- Witness for C4's amended theorem. -/
theorem cancellation_witness :
    collectRun "42" 60 42 1000 [recordHi]
      ([.frame (.event eventOther)] ++ .cancelSignal :: []) = none ∧
    (collectRun "42" 60 42 1000 [recordHi] (.deadline 1005 :: []) =
      some { success := true, group_id := "42",
             collected_count := [recordHi].length,
             duration_minutes := 60, start_time := 1000, end_time := 1005,
             messages := [recordHi] }) ∧
    (1000 : Nat) ≤ 1005 :=
  cancellation_and_deadline "42" 60 42 1000 [recordHi]
    [.frame (.event eventOther)] [] 1005
    (by intro x hx m; rw [List.mem_singleton] at hx; subst hx; simp)
    (by omega)

/-- C5: an event whose scope does not match the session's target is never
appended to the buffer; the buffer is exactly the accepted records of the
observed frames, and its size equals the count of frames that both match
the target scope and have non-empty extracted text. -/
theorem scope_filter_exact (t : Nat) (raws : List Inbound) :
    (∀ buf e, ¬(e.post_type = "message" ∧ e.message_type = "group" ∧
        e.group_id = t) → handleMessage t buf (.event e) = buf) ∧
    collectBuffer t raws = raws.filterMap (acceptEvent t) ∧
    (collectBuffer t raws).length =
      (raws.filter (fun r => scopeOk t r && textOk r)).length :=
  ⟨fun buf e h => by simp only [handleMessage, if_neg h],
    collectBuffer_eq t raws, length_collectBuffer t raws⟩

/-- Witness for C5 on a two-event stream (one matching, one other scope). -/
theorem scope_filter_witness :
    handleMessage 42 [] (.event eventOther) = [] ∧
    collectBuffer 42 [.event eventHi, .event eventOther] =
      [Inbound.event eventHi, Inbound.event eventOther].filterMap
        (acceptEvent 42) ∧
    (collectBuffer 42 [.event eventHi, .event eventOther]).length =
      ([Inbound.event eventHi, Inbound.event eventOther].filter
        (fun r => scopeOk 42 r && textOk r)).length := by
  have h := scope_filter_exact 42 [.event eventHi, .event eventOther]
  exact ⟨h.1 [] eventOther (by decide), h.2.1, h.2.2⟩

/-- Counterexample for C6: requesting a 0-minute deadline on the command
line (`--duration 0`) does not start a 0-minute session — `parseInt(v) ||
60` treats 0 as falsy, so the session's deadline becomes the 60-minute
default and it does not immediately finalize. -/
theorem zero_duration_coerced :
    argsDurationOf (parseArgs none (some "123") none ["--duration", "0"]) =
      some 60 ∧ (60 : Int) ≠ 0 :=
  ⟨rfl, by decide⟩

/-- C6 (amended): `--duration 0` is coerced to the default 60-minute
deadline; a session whose deadline fires with nothing buffered produces a
success report with an empty record list and `collected_count == 0` — not
an error. -/
theorem zero_duration_behavior (gs : String) (dur : Int) (t st now : Nat)
    (post : List SessionInput) :
    parseArgs none (some "123") none ["--duration", "0"] =
      .ok { napcat := "ws://127.0.0.1:3001", group := "123", duration := 60,
            token := "" } ∧
    collectRun gs dur t st [] (.deadline now :: post) =
      some { success := true, group_id := gs, collected_count := 0,
             duration_minutes := dur, start_time := st, end_time := now,
             messages := [] } :=
  ⟨rfl, rfl⟩

/-- C7: the fetch flow accepts the history payload as either a direct list
or an object with a nested `messages` list (both give the same report);
`fetched_count` is the number of items with non-empty extracted text and
`requested_count` echoes the requested count. -/
theorem fetch_dual_shape (items : List Msg) (n : Int) (gs : String)
    (now : Nat) :
    mkFetchReport gs n now (some (.jobj (some (.jarr items)))) =
      mkFetchReport gs n now (some (.jarr items)) ∧
    (mkFetchReport gs n now (some (.jarr items))).fetched_count =
      (items.filter (fun m => extractText m.message ≠ "")).length ∧
    (mkFetchReport gs n now (some (.jarr items))).requested_count = n ∧
    (mkFetchReport gs n now (some (.jarr items))).success = true := by
  refine ⟨rfl, ?_, rfl, rfl⟩
  show (fetchMessages (some (.jarr items))).length = _
  rw [fetchMessages]
  rw [show rawMessagesOf (some (.jarr items)) = items from rfl]
  exact length_filterMap_formatMessage items

/-- C8: extracting the three-segment example yields `"hello world"`, the
image-only example yields `""`, and the formatter returns null exactly when
the extracted text is empty. -/
theorem extract_and_format_text :
    extractText (some [{ type := "text", dataText := some "hello " },
      { type := "image", dataText := none },
      { type := "text", dataText := some "world" }]) = "hello world" ∧
    extractText (some [{ type := "image", dataText := none }]) = "" ∧
    ∀ m : Msg, formatMessage m = none ↔ extractText m.message = "" :=
  ⟨by decide, by decide, formatMessage_eq_none_iff⟩

/-- C10: if the connection closes while collecting, the session neither
aborts nor errors: it keeps waiting until the deadline fires and then
produces a success report containing exactly the records buffered before
the closure. -/
theorem close_keeps_collecting (gs : String) (dur : Int) (t st : Nat)
    (raws : List Inbound) (now : Nat) :
    collectRun gs dur t st []
      (raws.map .frame ++
        SessionInput.closeEvt :: [SessionInput.deadline now]) =
      some { success := true, group_id := gs,
             collected_count := (collectBuffer t raws).length,
             duration_minutes := dur, start_time := st, end_time := now,
             messages := collectBuffer t raws } := by
  rw [collectRun_frames]
  rfl

end Chatpicking
